import Mathlib

/-!
Verification of the lunatic `lunatic-thalo-api` crate: a shallow embedding of
the aggregate execution engine (scratch transfer buffer, module-name
validation, module loading, and the `execute_command` orchestration over the
event store), with theorems checking the natural-language specification
against it.

Conventions of the embedding:
* byte buffers are `List UInt8`; machine integers that can go negative
  (event versions) are `Int`;
* the guest memory reads (pointer/length pairs) performed by every host
  function are abstracted away: host functions take the already-decoded
  `String`/`List UInt8` arguments, since all claims concern the logic after
  those reads;
* fallible host paths are an explicit result type (`HostResult`):
  `ok` carries the updated session, `fault` models an `or_trap` abort
  (which leaves the session mutations made so far in place), and
  `panicked` models a Rust panic in host code;
* the guest aggregate contract (the sandboxed wasm component, which is not
  part of this repository) is modelled from the spec, see `Aggregate`.
-/

namespace Thalo

/-! ## Scratch transfer buffer (`events_scratch.rs`) -/

/-- `EventsScratch` from `events_scratch.rs`: a cursor (`read_ptr`) plus the
staged byte buffer. -/
structure EventsScratch where
  read_ptr : Nat
  buffer : List UInt8
  deriving Repr, DecidableEq

/-- `EventsScratch::new`: cursor at 0. -/
def EventsScratch.new (buffer : List UInt8) : EventsScratch :=
  { read_ptr := 0, buffer := buffer }

/-- `<EventsScratch as io::Read>::read` from `events_scratch.rs:19-31`.
`self.buffer.get(self.read_ptr..)` is `Some` exactly when
`read_ptr <= buffer.len()`, otherwise the function returns the
`OutOfMemory` error. On the `Some` slice, `buf.write(slice)` copies
`min(slice.len(), buf.len())` bytes — here the copied bytes are returned as a
list whose length is that minimum — and the cursor advances by the amount
copied. The destination buffer is represented by its length `destLen`. -/
def EventsScratch.read (s : EventsScratch) (destLen : Nat) :
    Except String (EventsScratch × List UInt8) :=
  if s.read_ptr ≤ s.buffer.length then
    let copied := (s.buffer.drop s.read_ptr).take destLen
    Except.ok ({ s with read_ptr := s.read_ptr + copied.length }, copied)
  else
    Except.error "Reading outside message buffer"

/-- A sequence of scratch reads with the given destination sizes, stopping at
the first error (which never occurs from a well-formed scratch, see below).
Returns the final scratch together with the list of copied chunks. -/
def readSeq (s : EventsScratch) : List Nat → Except String (EventsScratch × List (List UInt8))
  | [] => Except.ok (s, [])
  | n :: ns =>
    match s.read n with
    | Except.error e => Except.error e
    | Except.ok (s', copied) =>
      match readSeq s' ns with
      | Except.error e => Except.error e
      | Except.ok (s'', outs) => Except.ok (s'', copied :: outs)

theorem EventsScratch.read_ok (s : EventsScratch) (n : Nat)
    (h : s.read_ptr ≤ s.buffer.length) :
    s.read n = Except.ok
      ({ s with read_ptr := s.read_ptr + ((s.buffer.drop s.read_ptr).take n).length },
       (s.buffer.drop s.read_ptr).take n) := by
  simp [EventsScratch.read, h]

theorem take_length_min (l : List UInt8) (p n : Nat) :
    ((l.drop p).take n).length = min (l.length - p) n := by
  simp [List.length_take, List.length_drop, Nat.min_comm]

theorem drop_min_length (l : List UInt8) (n : Nat) :
    l.drop (min n l.length) = l.drop n := by
  rcases Nat.le_total n l.length with h | h
  · rw [Nat.min_eq_left h]
  · rw [Nat.min_eq_right h, List.drop_eq_nil_of_le h, List.drop_eq_nil_of_le (le_refl _)]

/-- Core invariant of the scratch protocol: starting from a state whose
cursor is within bounds, every read succeeds, the buffer is never modified,
the final cursor is `min (start + total requested) length`, and the
concatenation of the copied chunks is the slice of the buffer from the start
cursor of length (at most) the total requested. -/
theorem readSeq_ok : ∀ (chunks : List Nat) (s : EventsScratch),
    s.read_ptr ≤ s.buffer.length →
    ∃ outs, readSeq s chunks =
        Except.ok (⟨min (s.read_ptr + chunks.sum) s.buffer.length, s.buffer⟩, outs) ∧
      outs.flatten = (s.buffer.drop s.read_ptr).take chunks.sum
  | [], s, h => by
    refine ⟨[], ?_, ?_⟩
    · simp only [readSeq, List.sum_nil, Nat.add_zero, Nat.min_eq_left h]
    · simp
  | n :: ns, s, h => by
    have hread := s.read_ok n h
    have hlen := take_length_min s.buffer s.read_ptr n
    set copied := (s.buffer.drop s.read_ptr).take n with hcopied
    have hptr : s.read_ptr + copied.length ≤ s.buffer.length := by
      rw [hlen]; omega
    obtain ⟨outs, hseq, hflat⟩ := readSeq_ok ns ⟨s.read_ptr + copied.length, s.buffer⟩ hptr
    refine ⟨copied :: outs, ?_, ?_⟩
    · have harith : (s.read_ptr + copied.length + ns.sum) ⊓ s.buffer.length =
          (s.read_ptr + (n :: ns).sum) ⊓ s.buffer.length := by
        rw [hlen, List.sum_cons]
        simp only [Nat.min_def]
        split_ifs <;> omega
      simp only [readSeq, hread, hseq]
      rw [harith]
    · simp only [List.flatten_cons, hflat, hcopied]
      have hdrop : s.buffer.drop (s.read_ptr + copied.length) =
          (s.buffer.drop s.read_ptr).drop n := by
        rw [hlen]
        have : s.read_ptr + min (s.buffer.length - s.read_ptr) n =
            s.read_ptr + min n (s.buffer.length - s.read_ptr) := by rw [Nat.min_comm]
        rw [this, ← List.drop_drop]
        have hlen2 : (s.buffer.drop s.read_ptr).length = s.buffer.length - s.read_ptr := by
          simp [List.length_drop]
        rw [← hlen2, drop_min_length]
      simp only [hdrop, hcopied, List.sum_cons]
      rw [List.take_add]

/-- A read from an exhausted scratch (cursor at the end of the buffer)
returns zero bytes and leaves the scratch unchanged, for any destination
size. -/
theorem EventsScratch.read_exhausted (buf : List UInt8) (n : Nat) :
    EventsScratch.read ⟨buf.length, buf⟩ n = Except.ok (⟨buf.length, buf⟩, []) := by
  simp [EventsScratch.read]

/-- C6: Scratch buffer round-trip. Staging a buffer of N bytes
(`EventsScratch.new`) and draining it via reads of arbitrary chunk sizes
whose total is at least N returns exactly the original N bytes in order
(the concatenation of the copied chunks is the staged buffer); the final
cursor sits at the end of the buffer, and every further read returns 0
bytes, repeatedly, leaving the scratch unchanged. Each single read copies
`min(remaining, requestedLength)` bytes and advances the cursor by that
amount (see `EventsScratch.read_ok` and the C9 theorem). -/
theorem scratch_round_trip (buffer : List UInt8) (chunks : List Nat)
    (hsum : buffer.length ≤ chunks.sum) :
    ∃ outs,
      readSeq (EventsScratch.new buffer) chunks =
        Except.ok (⟨buffer.length, buffer⟩, outs) ∧
      outs.flatten = buffer ∧
      ∀ n, EventsScratch.read ⟨buffer.length, buffer⟩ n =
        Except.ok (⟨buffer.length, buffer⟩, []) := by
  obtain ⟨outs, hseq, hflat⟩ :=
    readSeq_ok chunks (EventsScratch.new buffer) (Nat.zero_le _)
  refine ⟨outs, ?_, ?_, fun n => EventsScratch.read_exhausted buffer n⟩
  · simpa [EventsScratch.new, Nat.min_eq_right hsum] using hseq
  · simpa [EventsScratch.new, List.take_of_length_le hsum] using hflat

/-- Witness for C6 at a concrete input: the buffer `[7, 8, 9]` drained with
chunk sizes `[2, 2]`. -/
theorem scratch_round_trip_witness :
    ([(7 : UInt8), 8, 9] : List UInt8).length ≤ ([2, 2] : List Nat).sum ∧
    ∃ outs,
      readSeq (EventsScratch.new [7, 8, 9]) [2, 2] =
        Except.ok (⟨([(7 : UInt8), 8, 9] : List UInt8).length, [7, 8, 9]⟩, outs) ∧
      outs.flatten = [7, 8, 9] ∧
      ∀ n, EventsScratch.read ⟨([(7 : UInt8), 8, 9] : List UInt8).length, [7, 8, 9]⟩ n =
        Except.ok (⟨([(7 : UInt8), 8, 9] : List UInt8).length, [7, 8, 9]⟩, []) :=
  ⟨by decide, scratch_round_trip [7, 8, 9] [2, 2] (by decide)⟩

/-- C9: for every `EventsScratch` constructed by `new` and every sequence of
reads, the invariant `read_ptr ≤ buffer.length` holds (the reachable cursor
is `min chunks.sum buffer.length`), so the out-of-bounds error branch in
`read` is unreachable: every read in the sequence returns `ok`, and a
further read from the reached state returns `ok` with exactly
`min (buffer.length - read_ptr) destLen` bytes copied, never failing. -/
theorem scratch_read_never_fails (buffer : List UInt8) (chunks : List Nat) (n : Nat) :
    ∃ outs,
      readSeq (EventsScratch.new buffer) chunks =
        Except.ok (⟨min chunks.sum buffer.length, buffer⟩, outs) ∧
      min chunks.sum buffer.length ≤ buffer.length ∧
      EventsScratch.read ⟨min chunks.sum buffer.length, buffer⟩ n =
        Except.ok
          (⟨min chunks.sum buffer.length +
              min (buffer.length - min chunks.sum buffer.length) n, buffer⟩,
           (buffer.drop (min chunks.sum buffer.length)).take n) ∧
      ((buffer.drop (min chunks.sum buffer.length)).take n).length =
        min (buffer.length - min chunks.sum buffer.length) n := by
  obtain ⟨outs, hseq, _⟩ :=
    readSeq_ok chunks (EventsScratch.new buffer) (Nat.zero_le _)
  have hle : min chunks.sum buffer.length ≤ buffer.length := Nat.min_le_right _ _
  have hlen := take_length_min buffer (min chunks.sum buffer.length) n
  refine ⟨outs, ?_, hle, ?_, hlen⟩
  · simpa [EventsScratch.new] using hseq
  · rw [EventsScratch.read_ok ⟨min chunks.sum buffer.length, buffer⟩ n hle]
    simp only [hlen]

/-! ## Module names (`module.rs`, `ModuleName::new`) -/

/-- The character class `[a-z]` of the module-name regex. -/
def isLowerAlpha (c : Char) : Bool := 'a' ≤ c && c ≤ 'z'

/-- Deterministic matcher for the sub-regex `(?:\-?[a-z])*` from
`module.rs:69` (matched against the rest of the string after the first
character). Each iteration consumes an optional hyphen followed by one
lowercase letter; a hyphen can only be consumed at the start of an
iteration, so the matcher is deterministic: on a hyphen the iteration must
consume it together with a following lowercase letter. -/
def matchTail : List Char → Bool
  | [] => true
  | c :: rest =>
    if c == '-' then
      match rest with
      | [] => false
      | c2 :: rest2 => isLowerAlpha c2 && matchTail rest2
    else
      isLowerAlpha c && matchTail rest

/-- The full module-name regex `^[a-z](?:\-?[a-z])*$` from
`ModuleName::new` in `module.rs:62-79`: one lowercase letter followed by
`matchTail`. -/
def moduleNameIsMatch (s : String) : Bool :=
  match s.data with
  | [] => false
  | c :: rest => isLowerAlpha c && matchTail rest

/-- `ModuleName` from `module.rs:24-25`: a validated wrapper around a
string. -/
structure ModuleName where
  name : String
  deriving Repr, DecidableEq

/-- `ModuleName::new` from `module.rs:62-79`: accepts the string exactly
when it matches the regex, otherwise returns the error. -/
def ModuleName.new (name : String) : Except String ModuleName :=
  if moduleNameIsMatch name then Except.ok ⟨name⟩
  else Except.error "module names must match the regex of ^[a-z](?:\\-?[a-z])*$"

/-- Spec-side predicate: no two consecutive hyphens anywhere in the list. -/
def noDoubleHyphen : List Char → Bool
  | [] => true
  | [_] => true
  | a :: b :: rest => !(a == '-' && b == '-') && noDoubleHyphen (b :: rest)

/-- Spec-side characterization of a valid module name, following the spec's
words: a nonempty string of lowercase letters with optional single hyphens
between them — every character is a lowercase letter or a hyphen, it neither
starts nor ends with a hyphen, and no two hyphens are adjacent. -/
def specModuleName (l : List Char) : Bool :=
  !l.isEmpty &&
  l.all (fun c => isLowerAlpha c || c == '-') &&
  !(l.head? == some '-') &&
  !(l.getLast? == some '-') &&
  noDoubleHyphen l

/-- Spec-side counterpart of `matchTail`: all characters lowercase or
hyphen, no double hyphen, and not ending in a hyphen (the tail may start
with a hyphen, because it follows the leading letter). -/
def specTail (l : List Char) : Bool :=
  l.all (fun c => isLowerAlpha c || c == '-') &&
  noDoubleHyphen l &&
  !(l.getLast? == some '-')

theorem lower_not_hyphen {c : Char} (h : isLowerAlpha c = true) : (c == '-') = false := by
  cases hc : (c == '-')
  · rfl
  · have hceq : c = '-' := eq_of_beq hc
    subst hceq
    exact absurd h (by decide)

/-- Prepending a lowercase letter does not change membership in the
tail language. -/
theorem specTail_cons_lower {c : Char} (h : isLowerAlpha c = true) (rest : List Char) :
    specTail (c :: rest) = specTail rest := by
  cases rest with
  | nil => simp [specTail, noDoubleHyphen, h, lower_not_hyphen h]
  | cons d t =>
    simp only [specTail, List.all_cons, noDoubleHyphen, List.getLast?_cons_cons, h,
      lower_not_hyphen h]
    simp [Bool.and_assoc, Bool.and_left_comm]

theorem matchTail_eq_specTail : ∀ l : List Char, matchTail l = specTail l
  | [] => by simp [matchTail, specTail, noDoubleHyphen]
  | [c] => by
    by_cases hc : c = '-'
    · subst hc; simp [matchTail, specTail, noDoubleHyphen]
    · have hbeq : (c == '-') = false := beq_false_of_ne hc
      cases hl : isLowerAlpha c
      · simp [matchTail, specTail, noDoubleHyphen, hbeq, hl]
      · simp [matchTail, specTail, noDoubleHyphen, hbeq, hl, lower_not_hyphen hl]
  | c :: d :: rest => by
    by_cases hc : c = '-'
    · subst hc
      rw [show matchTail ('-' :: d :: rest) = (isLowerAlpha d && matchTail rest) by
        simp [matchTail]]
      cases hd : isLowerAlpha d
      · -- d is not a lowercase letter: both sides are false
        simp only [Bool.false_and]
        cases hdh : (d == '-')
        · -- d is neither lowercase nor a hyphen: the all-characters check fails
          simp [specTail, noDoubleHyphen, hd, hdh]
        · -- d is a hyphen: the double-hyphen check fails
          simp [specTail, noDoubleHyphen, hdh]
      · rw [matchTail_eq_specTail rest]
        have hdh := lower_not_hyphen hd
        simp only [specTail, List.all_cons, noDoubleHyphen, List.getLast?_cons_cons, hd, hdh]
        cases rest with
        | nil => simp [specTail, noDoubleHyphen, hd, hdh]
        | cons e t =>
          have hdne : ¬d = '-' := fun hh => by simp [hh] at hdh
          simp only [specTail, List.all_cons, noDoubleHyphen, List.getLast?_cons_cons]
          simp [Bool.and_assoc, Bool.and_left_comm, hdne]
    · have hbeq : (c == '-') = false := beq_false_of_ne hc
      rw [show matchTail (c :: d :: rest) = (isLowerAlpha c && matchTail (d :: rest)) by
        simp [matchTail, hbeq]]
      cases hl : isLowerAlpha c
      · simp [specTail, noDoubleHyphen, hl, hbeq]
      · rw [matchTail_eq_specTail (d :: rest), specTail_cons_lower hl]
        simp

/-- C8: `ModuleName.new` accepts a string if and only if it is a nonempty
sequence of lowercase letters with optional single hyphens between them
(the language of `^[a-z](?:\-?[a-z])*$`): every character is a lowercase
letter or a hyphen, the string neither starts nor ends with a hyphen, and
no two hyphens are adjacent. In particular the empty string, uppercase or
non-letter characters, leading or trailing hyphens, and consecutive hyphens
are all rejected. -/
theorem moduleName_new_iff_spec (s : String) :
    ModuleName.new s = Except.ok ⟨s⟩ ↔ specModuleName s.data = true := by
  have hmatch : moduleNameIsMatch s = specModuleName s.data := by
    rw [moduleNameIsMatch]
    cases hdata : s.data with
    | nil => simp [specModuleName]
    | cons c rest =>
      show (isLowerAlpha c && matchTail rest) = specModuleName (c :: rest)
      rw [matchTail_eq_specTail rest]
      cases hl : isLowerAlpha c
      · cases hch : (c == '-')
        · simp [specModuleName, hl, hch]
        · have : c = '-' := eq_of_beq hch
          subst this
          simp [specModuleName]
      · have hch := lower_not_hyphen hl
        rw [show specModuleName (c :: rest) =
            (true && ((isLowerAlpha c || c == '-') && rest.all (fun x => isLowerAlpha x || x == '-')) &&
              !((c :: rest).head? == some '-') && !((c :: rest).getLast? == some '-') &&
              noDoubleHyphen (c :: rest)) by simp [specModuleName]]
        cases rest with
        | nil => simp [specTail, noDoubleHyphen, hl, hch]
        | cons d t =>
          simp only [specTail, List.head?_cons, List.getLast?_cons_cons, List.all_cons,
            noDoubleHyphen, hl, hch]
          simp [hch, Bool.and_comm, Bool.and_assoc, Bool.and_left_comm]
  constructor
  · intro h
    by_contra hspec
    have hfalse : moduleNameIsMatch s = false := by
      rw [hmatch]
      exact Bool.eq_false_iff.mpr hspec
    rw [ModuleName.new, hfalse] at h
    simp at h
  · intro h
    rw [ModuleName.new, hmatch, h]
    simp

/-! ## The guest aggregate contract (`wit_aggregate.rs`, `module.rs`) -/

/-- `Event` from `module.rs:44-48` (also `EventResult` in
`wit_aggregate.rs`): a proposed event, an event type plus a payload, with no
assigned stream or version. -/
structure Event where
  event_type : String
  payload : List UInt8
  deriving Repr, DecidableEq

/-- The ten-variant guest `Error` from `wit_aggregate.rs:60-81`. -/
inductive Error where
  | command (msg : String)
  | custom (msg : String)
  | deserializeCommand (msg : String)
  | deserializeEvent (msg : String)
  | deserializeState (msg : String)
  | serializeCommand (msg : String)
  | serializeEvent (msg : String)
  | serializeState (msg : String)
  | unknownCommand
  | unknownEvent
  deriving Repr, DecidableEq

/-- The `Display` implementation of `Error` from `wit_aggregate.rs:83-98`. -/
def Error.toMessage : Error → String
  | Error.command msg => "command failed: " ++ msg
  | Error.custom msg => "error: " ++ msg
  | Error.deserializeCommand msg => "deserialize command failed: " ++ msg
  | Error.deserializeEvent msg => "deserialize event failed: " ++ msg
  | Error.deserializeState msg => "deserialize state failed: " ++ msg
  | Error.serializeCommand msg => "serialize command failed: " ++ msg
  | Error.serializeEvent msg => "serialize event failed: " ++ msg
  | Error.serializeState msg => "serialize state failed: " ++ msg
  | Error.unknownCommand => "unknown command"
  | Error.unknownEvent => "unknown event"

/-- A failed call into the sandbox. `module.rs` merges both levels into
`anyhow::Error` (the outer `?` on the wasmtime call and the inner `?` on the
guest's `Result<_, Error>`): `trap` models a wasmtime-level failure (fuel
exhaustion, a guest trap), `domain` a `DomainError` value returned by the
guest contract. -/
inductive CallError where
  | trap (msg : String)
  | domain (e : Error)
  deriving Repr, DecidableEq

/-- The `Display` message of the merged `anyhow::Error`
(`err.to_string()` in `execute_command`, `lib.rs:250`). -/
def CallError.toMessage : CallError → String
  | CallError.trap msg => msg
  | CallError.domain e => e.toMessage

/-- Modelled from the spec: the guest aggregate contract (§4.3). The guest
wasm component itself is not part of this repository, so its three
operations are modelled as abstract functions; per the spec, `replay`
(called `apply` in the code) is a deterministic fold over the ordered
events, so it is represented by its per-event step `applyStep` (folded by
`Aggregate.apply`), while `init` and `handle` (the spec's `initialize` and
`decide`) are arbitrary functions of their stated inputs. Any call may fail
with a `CallError`. -/
structure Aggregate where
  init : String → Except CallError (List UInt8)
  applyStep : List UInt8 → Event → Except CallError (List UInt8)
  handle : List UInt8 → String → List UInt8 → Except CallError (List Event)

/-- `Aggregate::apply` (the contract's `replay`): the deterministic fold of
the events into the state, stopping at the first error. -/
def Aggregate.apply (a : Aggregate) (state : List UInt8) (events : List Event) :
    Except CallError (List UInt8) :=
  events.foldlM a.applyStep state

/-- `ModuleInstance` from `module.rs:37-42`: one running aggregate, with its
bound contract, stream identity, and evolving serialized state. The shared
fuel-metered wasmtime `Store` behind its lock is a concurrency artifact and
is not represented. -/
structure ModuleInstance where
  aggregate : Aggregate
  id : String
  state : List UInt8

/-- `ModuleInstance::apply` from `module.rs:167-178`: folds the events into
the state via the contract; `self.state` is assigned only when the call
succeeds, so on error the instance is unchanged. -/
def ModuleInstance.apply (inst : ModuleInstance) (events : List Event) :
    Except CallError ModuleInstance :=
  match inst.aggregate.apply inst.state events with
  | Except.ok state => Except.ok { inst with state := state }
  | Except.error e => Except.error e

/-- `ModuleInstance::handle` from `module.rs:180-194`: calls the contract's
`handle` (`decide`) on the current state; never mutates the state. -/
def ModuleInstance.handle (inst : ModuleInstance) (command : String) (payload : List UInt8) :
    Except CallError (List Event) :=
  inst.aggregate.handle inst.state command payload

/-- `ModuleInstance::handle_and_apply` from `module.rs:196-201`: `handle`
then `apply` on its output; returns the updated instance together with the
proposed events (the Rust method mutates `self` in place and returns the
events). -/
def ModuleInstance.handle_and_apply (inst : ModuleInstance) (command : String)
    (payload : List UInt8) : Except CallError (ModuleInstance × List Event) :=
  match inst.handle command payload with
  | Except.error e => Except.error e
  | Except.ok events =>
    match inst.apply events with
    | Except.error e => Except.error e
    | Except.ok inst' => Except.ok (inst', events)

/-! ## The event store (the `event` table queried in `lib.rs`) -/

/-- A persisted row of the `event` table:
`stream (text), version (int64), type (text), body (bytes)`. -/
structure EventRecord where
  stream : String
  version : Int
  event_type : String
  payload : List UInt8
  deriving Repr, DecidableEq

/-- The `event` table, in insertion order. -/
abbrev Store := List EventRecord

/-- The versions of the rows of one stream
(`SELECT version ... WHERE stream = $1`). -/
def streamVersions (store : Store) (stream : String) : List Int :=
  (store.filter (fun r => r.stream == stream)).map EventRecord.version

/-- `SELECT MAX(version) as version FROM event WHERE stream = $1` followed
by `.unwrap_or(-1)` (`lib.rs:282-289` and `stream_version`,
`lib.rs:469-477`): the highest persisted version of the stream, or -1 if
the stream has no events (`MAX` of no rows is SQL `NULL`). -/
def currentVersion (store : Store) (stream : String) : Int :=
  match streamVersions store stream with
  | [] => -1
  | v :: vs => vs.foldl max v

/-- The version-assignment fold of `execute_command`'s insert
(`lib.rs:310-326`): starting from the queried current version, each
proposed event gets the next consecutive version, in the given order. -/
def assignVersions (stream : String) : Int → List Event → List EventRecord
  | _, [] => []
  | version, e :: es =>
    { stream := stream, version := version + 1,
      event_type := e.event_type, payload := e.payload }
      :: assignVersions stream (version + 1) es

/-- The row struct of the `SELECT version, type, body` queries in
`load_events` and `init_module` (the local `struct Event` in `lib.rs`). -/
structure StoredEvent where
  version : Int
  eventType : String
  body : List UInt8
  deriving Repr, DecidableEq

/-- `SELECT version, type, body FROM event WHERE stream = $1`
(`lib.rs:377-392`): all rows of the stream, in store order (the query has no
ORDER BY clause). -/
def selectStreamEvents (store : Store) (stream : String) : List StoredEvent :=
  (store.filter (fun r => r.stream == stream)).map
    (fun r => { version := r.version, eventType := r.event_type, body := r.payload })

/-! ## Serialization (`bincode::serialize` calls in `lib.rs`) -/

/-- A `u64` in little-endian bytes, as bincode lays out lengths. -/
def u64le (n : Nat) : List UInt8 :=
  (List.range 8).map (fun i => UInt8.ofNat (n / 256 ^ i))

/-- An `i64` in two's-complement little-endian bytes. -/
def i64le (n : Int) : List UInt8 :=
  u64le (n % (2 ^ 64)).toNat

/-- bincode encoding of a `String`: length-prefixed UTF-8 bytes. -/
def bincodeString (s : String) : List UInt8 :=
  u64le s.toUTF8.toList.length ++ s.toUTF8.toList

/-- bincode encoding of one row of the `SELECT version, type, body`
queries. -/
def bincodeStoredEvent (e : StoredEvent) : List UInt8 :=
  i64le e.version ++ bincodeString e.eventType ++ u64le e.body.length ++ e.body

/-- bincode encoding of the `Vec` of rows staged by `load_events`. -/
def bincodeStoredEvents (es : List StoredEvent) : List UInt8 :=
  u64le es.length ++ (es.map bincodeStoredEvent).flatten

/-- `bincode::serialize(&err)` in `execute_command` (`lib.rs:255`), where
`err` is the `to_string()` of the failed call's error. -/
def serializeCallError (e : CallError) : List UInt8 :=
  bincodeString e.toMessage

/-! ## Module loading (`module.rs`, `Module::from_file`) -/

/-- `Module` from `module.rs:27-35`: the bound contract (the shared
fuel-metered wasmtime `Store` behind its lock is not represented). -/
structure Module where
  aggregate : Aggregate

/-- What the file system holds at a path: no file, a file that is not a
valid wasm component, or a valid component, which either exports the
`aggregate` instance with the three typed operations or does not. -/
structure GuestComponent where
  hasAggregateExports : Bool
  aggregate : Aggregate

inductive FileContent where
  | missing
  | invalidBinary
  | component (c : GuestComponent)

/-- Outcome of `Module::from_file`: a Rust panic, an `Err`, or a loaded
module. -/
inductive LoadOutcome where
  | panicked
  | loadError (msg : String)
  | loaded (m : Module)

/-- `Module::from_file` from `module.rs:118-136`.
`Component::from_file(&engine, file).unwrap()` panics when the file is
missing or is not a valid component binary (the error is unwrapped, not
propagated); only `instantiate_async` / `Aggregate::new` failures — the
`aggregate` export instance or one of its three typed operations absent or
wrongly typed (`wit_aggregate.rs:113-135, 217-230`) — are returned as
`Err`. The fuel budget configures metering only and does not affect the
load outcome. -/
def Module.from_file (fs : String → FileContent) (fuel : Nat) (file : String) : LoadOutcome :=
  match fs file with
  | FileContent.missing => LoadOutcome.panicked
  | FileContent.invalidBinary => LoadOutcome.panicked
  | FileContent.component c =>
    if c.hasAggregateExports then LoadOutcome.loaded { aggregate := c.aggregate }
    else LoadOutcome.loadError "no exported instance aggregate"

/-! ## The guest session and the host function surface (`lib.rs`) -/

/-- The per-session host state reached through `AggregateModuleCtx`
(`lib.rs:23-32`): the optional database pool (modelled by the contents of
the `event` table it reaches), the two resource tables (modelled as lists,
with the handle as the position — `HashMapId` hands out monotonically
increasing ids), and the single-slot scratch buffer. -/
structure Session where
  database_pool : Option Store
  aggregate_module_resources : List Module
  aggregate_module_instance_resources : List (String × ModuleInstance)
  events_scratch : Option EventsScratch

/-- Result of one host call: `ok` carries the updated session and the
returned value; `fault` models an `or_trap` abort of the calling guest
operation, carrying the session as the mutations made before the abort
left it; `panicked` models a Rust panic in host code (not a trap — the host
process itself fails). -/
inductive HostResult (α : Type) where
  | ok (sess : Session) (value : α)
  | fault (sess : Session) (msg : String)
  | panicked

/-- `load_module` from `lib.rs:85-108` (after the memory/utf8 reads): on a
`Module::from_file` error returns -1; on success adds the module to the
resource table and returns its handle. A panic inside `Module::from_file`
propagates. -/
def load_module (sess : Session) (fs : String → FileContent) (fuel : Nat) (file : String) :
    HostResult Int :=
  match Module.from_file fs fuel file with
  | LoadOutcome.panicked => HostResult.panicked
  | LoadOutcome.loadError _ => HostResult.ok sess (-1)
  | LoadOutcome.loaded m =>
    HostResult.ok
      { sess with aggregate_module_resources := sess.aggregate_module_resources ++ [m] }
      (sess.aggregate_module_resources.length : Int)

/-- The persistence step of `execute_command` (`lib.rs:267-334`): zero
events short-circuit to 0 before any database access; otherwise the current
MAX version is read and the batch is inserted with consecutive versions.
`insertOk` models the outcome of the INSERT (`false`: a uniqueness conflict
on `(stream, version)` raced by a concurrent append, or an infrastructure
failure — either way `or_trap` aborts the call). -/
def executePersist (sess : Session) (stream : String) (events : List Event)
    (insertOk : Bool) : HostResult Int :=
  if events.length = 0 then HostResult.ok sess 0
  else
    match sess.database_pool with
    | none => HostResult.fault sess "lunatic::thalo::execute_command"
    | some store =>
      if insertOk then
        HostResult.ok
          { sess with
              database_pool :=
                some (store ++ assignVersions stream (currentVersion store stream) events) }
          (events.length : Int)
      else HostResult.fault sess "lunatic::thalo::execute_command"

/-- `execute_command` from `lib.rs:210-335` (after the memory reads): looks
up the instance (missing handle: trap), runs `handle_and_apply` — which
mutates the instance in the resource table exactly when it succeeds — and
on any error serializes its message, stages it as the new scratch buffer
and returns -1; on success the persistence step runs on the already-updated
session. -/
def execute_command (sess : Session) (command : String) (payload : List UInt8)
    (instanceId : Nat) (insertOk : Bool) : HostResult Int :=
  match sess.aggregate_module_instance_resources.get? instanceId with
  | none => HostResult.fault sess "lunatic::thalo::execute_command"
  | some (stream, inst) =>
    match inst.handle_and_apply command payload with
    | Except.error err =>
      HostResult.ok
        { sess with events_scratch := some (EventsScratch.new (serializeCallError err)) }
        (-1)
    | Except.ok (inst', events) =>
      executePersist
        { sess with aggregate_module_instance_resources :=
            sess.aggregate_module_instance_resources.set instanceId (stream, inst') }
        stream events insertOk

/-- `load_events` from `lib.rs:349-403` (after the memory/utf8 reads): with
no connected pool the call traps; otherwise the rows of the stream are
fetched — the source carries the same `SELECT version, type, body FROM
event WHERE stream = $1` in both the `from_version < 0` branch and the
other branch (`lib.rs:376-392`) — serialized, and staged as the new scratch
buffer, discarding any previous one. -/
def load_events (sess : Session) (stream : String) (from_version : Int) :
    HostResult Unit :=
  match sess.database_pool with
  | none => HostResult.fault sess "lunatic::thalo::load_events"
  | some store =>
    let events :=
      if from_version < 0 then selectStreamEvents store stream
      else selectStreamEvents store stream
    HostResult.ok
      { sess with
          events_scratch := some (EventsScratch.new (bincodeStoredEvents events)) }
      ()

/-- `read_events_data` from `lib.rs:410-435`: takes the scratch (trap when
none is pending), reads into the guest buffer (represented by its length),
and puts the scratch back; returns the byte count, here together with the
copied bytes. When the read itself fails the taken scratch is not put
back. -/
def read_events_data (sess : Session) (data_len : Nat) : HostResult (Nat × List UInt8) :=
  match sess.events_scratch with
  | none => HostResult.fault sess "lunatic::message::read_events_data"
  | some scratch =>
    match scratch.read data_len with
    | Except.error msg =>
      HostResult.fault { sess with events_scratch := none } msg
    | Except.ok (scratch', copied) =>
      HostResult.ok { sess with events_scratch := some scratch' }
        (copied.length, copied)

/-- `stream_version` from `lib.rs:449-478` (after the memory/utf8 reads). -/
def stream_version (sess : Session) (stream : String) : HostResult Int :=
  match sess.database_pool with
  | none => HostResult.fault sess "lunatic::thalo::stream_version"
  | some store => HostResult.ok sess (currentVersion store stream)

/-! ## Helper lemmas about the resource-table model -/

theorem list_set_self {α : Type _} : ∀ (l : List α) (i : Nat) (a : α),
    l.get? i = some a → l.set i a = l
  | [], _, _, h => by simp at h
  | x :: _, 0, a, h => by
    simp only [List.get?_cons_zero, Option.some.injEq] at h
    subst h
    rfl
  | x :: xs, i + 1, a, h => by
    simp only [List.get?_cons_succ] at h
    simp [List.set, list_set_self xs i a h]

theorem list_get_set_self {α : Type _} : ∀ (l : List α) (i : Nat) (a b : α),
    l.get? i = some b → (l.set i a).get? i = some a
  | [], _, _, _, h => by simp at h
  | _ :: _, 0, _, _, _ => rfl
  | _ :: xs, i + 1, a, b, h => by
    simp only [List.get?_cons_succ] at h
    simpa using list_get_set_self xs i a b h

/-- The versions assigned by the insert fold are consecutive, starting one
above the version it starts from. -/
theorem assignVersions_versions (stream : String) :
    ∀ (events : List Event) (v : Int),
      (assignVersions stream v events).map EventRecord.version =
        (List.range events.length).map (fun i : Nat => v + 1 + (i : Int))
  | [], v => by simp [assignVersions]
  | e :: es, v => by
    rw [show assignVersions stream v (e :: es) =
        { stream := stream, version := v + 1,
          event_type := e.event_type, payload := e.payload }
          :: assignVersions stream (v + 1) es from rfl]
    rw [List.map_cons, assignVersions_versions stream es (v + 1), List.length_cons,
      List.range_succ_eq_map, List.map_cons, List.map_map]
    congr 1
    · simp
    · refine List.map_congr_left (fun i _ => ?_)
      simp only [Function.comp_apply]
      push_cast
      ring

/-! ## The claims about `execute_command` and `load_events` -/

/-- C1: when the contract's decide (`handle`) returns a `DomainError`,
`execute_command` returns -1 and stages the serialized error as the
session's pending scratch buffer, replacing any previous one; the session
it returns is otherwise the one it was given — the instance table and the
store are untouched, so no events are persisted and the instance state
bytes are exactly those before the call. -/
theorem execute_command_domain_error (sess : Session) (command : String)
    (payload : List UInt8) (instanceId : Nat) (insertOk : Bool) (stream : String)
    (inst : ModuleInstance) (e : Error)
    (hinst : sess.aggregate_module_instance_resources.get? instanceId = some (stream, inst))
    (hhandle : inst.aggregate.handle inst.state command payload =
      Except.error (CallError.domain e)) :
    execute_command sess command payload instanceId insertOk =
      HostResult.ok
        { sess with
            events_scratch :=
              some (EventsScratch.new (serializeCallError (CallError.domain e))) }
        (-1) := by
  have hha : inst.handle_and_apply command payload = Except.error (CallError.domain e) := by
    rw [ModuleInstance.handle_and_apply, ModuleInstance.handle, hhandle]
  simp only [execute_command, hinst, hha]

def unknownCommandAggregate : Aggregate where
  init := fun _ => Except.ok []
  applyStep := fun s _ => Except.ok s
  handle := fun _ _ _ => Except.error (CallError.domain Error.unknownCommand)

def unknownCommandInstance : ModuleInstance :=
  { aggregate := unknownCommandAggregate, id := "acct-1", state := [1, 2] }

def unknownCommandSession : Session :=
  { database_pool := some [],
    aggregate_module_resources := [],
    aggregate_module_instance_resources := [("acct-1", unknownCommandInstance)],
    events_scratch := none }

/-- Witness for C1: a session whose instance's contract answers every
command with `DomainError::UnknownCommand`. -/
theorem execute_command_domain_error_witness :
    unknownCommandSession.aggregate_module_instance_resources.get? 0 =
      some ("acct-1", unknownCommandInstance) ∧
    unknownCommandInstance.aggregate.handle unknownCommandInstance.state "bogus" [] =
      Except.error (CallError.domain Error.unknownCommand) ∧
    execute_command unknownCommandSession "bogus" [] 0 true =
      HostResult.ok
        { unknownCommandSession with
            events_scratch :=
              some (EventsScratch.new
                (serializeCallError (CallError.domain Error.unknownCommand))) }
        (-1) :=
  ⟨rfl, rfl,
    execute_command_domain_error unknownCommandSession "bogus" [] 0 true "acct-1"
      unknownCommandInstance Error.unknownCommand rfl rfl⟩

/-- C2: `load_events` stages the same event list for every `fromVersion`:
the branch for `fromVersion < 0` and the branch for `fromVersion ≥ 0` run
the identical query, so any requested `fromVersion` yields the entire
history of the stream (the rows of the stream in store order; their
versions are exactly `streamVersions`, so for a store built by the append
protocol they are ascending). -/
theorem load_events_ignores_from_version (sess : Session) (stream : String) (v : Int)
    (store : Store) (hdb : sess.database_pool = some store) :
    load_events sess stream v = load_events sess stream (-1) ∧
    load_events sess stream v =
      HostResult.ok
        { sess with
            events_scratch :=
              some (EventsScratch.new (bincodeStoredEvents (selectStreamEvents store stream))) }
        () ∧
    (selectStreamEvents store stream).map StoredEvent.version = streamVersions store stream := by
  refine ⟨?_, ?_, ?_⟩
  · simp [load_events, hdb]
  · simp [load_events, hdb]
  · simp [selectStreamEvents, streamVersions, List.map_map, Function.comp]

def sampleStore : Store :=
  [{ stream := "acct-1", version := 0, event_type := "deposited", payload := [100] },
   { stream := "other", version := 0, event_type := "opened", payload := [] },
   { stream := "acct-1", version := 1, event_type := "deposited", payload := [50] }]

def sampleSession : Session :=
  { database_pool := some sampleStore,
    aggregate_module_resources := [],
    aggregate_module_instance_resources := [],
    events_scratch := none }

/-- Witness for C2: requesting events of `"acct-1"` from version 5 stages
the same full history as requesting from version -1. -/
theorem load_events_ignores_from_version_witness :
    sampleSession.database_pool = some sampleStore ∧
    (load_events sampleSession "acct-1" 5 = load_events sampleSession "acct-1" (-1) ∧
    load_events sampleSession "acct-1" 5 =
      HostResult.ok
        { sampleSession with
            events_scratch :=
              some (EventsScratch.new
                (bincodeStoredEvents (selectStreamEvents sampleStore "acct-1"))) }
        () ∧
    (selectStreamEvents sampleStore "acct-1").map StoredEvent.version =
      streamVersions sampleStore "acct-1") :=
  ⟨rfl, load_events_ignores_from_version sampleSession "acct-1" 5 sampleStore rfl⟩

/-- C3: when decide succeeds with a non-empty batch and the insert goes
through, `execute_command` reads the stream's current highest version
(`currentVersion`, -1 for an empty stream), assigns consecutive increasing
versions starting at `currentVersion + 1` to the proposed events in their
given order, and appends all resulting records to the store as one batch,
returning the event count; in particular, when the stream has no events
the assigned versions are `0, 1, ...`, so the first event ever appended
receives version 0. -/
theorem execute_command_appends_versions (sess : Session) (command : String)
    (payload : List UInt8) (instanceId : Nat) (stream : String)
    (inst inst' : ModuleInstance) (events : List Event) (store : Store)
    (hinst : sess.aggregate_module_instance_resources.get? instanceId = some (stream, inst))
    (hha : inst.handle_and_apply command payload = Except.ok (inst', events))
    (hne : events ≠ [])
    (hdb : sess.database_pool = some store) :
    execute_command sess command payload instanceId true =
      HostResult.ok
        { sess with
            aggregate_module_instance_resources :=
              sess.aggregate_module_instance_resources.set instanceId (stream, inst'),
            database_pool :=
              some (store ++ assignVersions stream (currentVersion store stream) events) }
        (events.length : Int) ∧
    (assignVersions stream (currentVersion store stream) events).map EventRecord.version =
      (List.range events.length).map
        (fun i : Nat => currentVersion store stream + 1 + (i : Int)) ∧
    (streamVersions store stream = [] →
      (assignVersions stream (currentVersion store stream) events).map EventRecord.version =
        (List.range events.length).map (fun i : Nat => (i : Int))) := by
  refine ⟨?_, assignVersions_versions stream events (currentVersion store stream), ?_⟩
  · simp only [execute_command, hinst, hha, executePersist]
    rw [if_neg (by simpa using hne), hdb]
    rfl
  · intro hempty
    rw [assignVersions_versions stream events (currentVersion store stream),
      currentVersion, hempty]
    refine List.map_congr_left (fun i _ => ?_)
    ring

def depositAggregate : Aggregate where
  init := fun _ => Except.ok []
  applyStep := fun s e => Except.ok (s ++ e.payload)
  handle := fun _ _ payload => Except.ok [{ event_type := "deposited", payload := payload }]

def depositInstance : ModuleInstance :=
  { aggregate := depositAggregate, id := "acct-1", state := [] }

def depositSession : Session :=
  { database_pool := some [],
    aggregate_module_resources := [],
    aggregate_module_instance_resources := [("acct-1", depositInstance)],
    events_scratch := none }

def depositInstanceAfter : ModuleInstance :=
  { aggregate := depositAggregate, id := "acct-1", state := [100] }

/-- Witness for C3: a deposit on an empty stream proposes one event, which
is appended at version 0. -/
theorem execute_command_appends_versions_witness :
    depositSession.aggregate_module_instance_resources.get? 0 =
      some ("acct-1", depositInstance) ∧
    depositInstance.handle_and_apply "deposit" [100] =
      Except.ok (depositInstanceAfter, [{ event_type := "deposited", payload := [100] }]) ∧
    ([{ event_type := "deposited", payload := [100] }] : List Event) ≠ [] ∧
    depositSession.database_pool = some [] ∧
    (execute_command depositSession "deposit" [100] 0 true =
      HostResult.ok
        { depositSession with
            aggregate_module_instance_resources :=
              depositSession.aggregate_module_instance_resources.set 0
                ("acct-1", depositInstanceAfter),
            database_pool :=
              some ([] ++ assignVersions "acct-1" (currentVersion [] "acct-1")
                [{ event_type := "deposited", payload := [100] }]) }
        (([{ event_type := "deposited", payload := [100] }] : List Event).length : Int) ∧
    (assignVersions "acct-1" (currentVersion [] "acct-1")
        [{ event_type := "deposited", payload := [100] }]).map EventRecord.version =
      (List.range ([{ event_type := "deposited", payload := [100] }] : List Event).length).map
        (fun i : Nat => currentVersion [] "acct-1" + 1 + (i : Int)) ∧
    (streamVersions [] "acct-1" = [] →
      (assignVersions "acct-1" (currentVersion [] "acct-1")
          [{ event_type := "deposited", payload := [100] }]).map EventRecord.version =
        (List.range ([{ event_type := "deposited", payload := [100] }] : List Event).length).map
          (fun i : Nat => (i : Int)))) :=
  ⟨rfl, rfl, List.cons_ne_nil _ _, rfl,
    execute_command_appends_versions depositSession "deposit" [100] 0 "acct-1"
      depositInstance depositInstanceAfter [{ event_type := "deposited", payload := [100] }]
      [] rfl rfl (List.cons_ne_nil _ _) rfl⟩

def emptySession : Session :=
  { database_pool := none,
    aggregate_module_resources := [],
    aggregate_module_instance_resources := [],
    events_scratch := none }

/-- C4 (code bug): `Module::from_file` unwraps the result of
`Component::from_file`, so `load_module` with a missing file or an invalid
binary panics the host instead of returning -1; only the contract-shape
mismatch (`aggregate` exports absent or wrongly typed) is returned as an
error, which `load_module` maps to -1. This theorem evaluates the code at
the failing inputs. -/
theorem load_module_missing_file_panics :
    load_module emptySession (fun _ => FileContent.missing) 1000 "aggregate.wasm" =
      HostResult.panicked ∧
    load_module emptySession (fun _ => FileContent.invalidBinary) 1000 "aggregate.wasm" =
      HostResult.panicked ∧
    load_module emptySession
      (fun _ => FileContent.component
        { hasAggregateExports := false, aggregate := unknownCommandAggregate })
      1000 "aggregate.wasm" =
      HostResult.ok emptySession (-1) :=
  ⟨rfl, rfl, rfl⟩

def applyFailAggregate : Aggregate where
  init := fun _ => Except.ok []
  applyStep := fun _ _ => Except.error (CallError.domain (Error.custom "diverged"))
  handle := fun _ _ payload => Except.ok [{ event_type := "deposited", payload := payload }]

def applyFailInstance : ModuleInstance :=
  { aggregate := applyFailAggregate, id := "acct-1", state := [] }

def applyFailSession : Session :=
  { database_pool := some [],
    aggregate_module_resources := [],
    aggregate_module_instance_resources := [("acct-1", applyFailInstance)],
    events_scratch := none }

/-- C5 counterexample: a contract whose decide succeeds with one proposed
event and whose replay then fails. `execute_command` does NOT abort with a
host fault: it returns -1 with the serialized replay error staged in the
scratch buffer — the same recoverable surface as a domain error from
decide, refuting the claim that this case is treated as fatal. -/
theorem execute_command_replay_failure_not_fatal :
    execute_command applyFailSession "deposit" [100] 0 true =
      HostResult.ok
        { applyFailSession with
            events_scratch :=
              some (EventsScratch.new
                (serializeCallError (CallError.domain (Error.custom "diverged")))) }
        (-1) := rfl

/-- C5 (amended): if decide (`handle`) succeeds but the subsequent replay
(`apply`) of its proposed events fails, `execute_command` surfaces it
exactly like a domain error — it returns -1 and stages the serialized
error in the scratch buffer; the instance state and the store are left
unchanged (the state assignment in `ModuleInstance::apply` only happens on
success), and no distinct fatal path is taken. -/
theorem execute_command_replay_failure_recoverable (sess : Session) (command : String)
    (payload : List UInt8) (instanceId : Nat) (insertOk : Bool) (stream : String)
    (inst : ModuleInstance) (events : List Event) (e : CallError)
    (hinst : sess.aggregate_module_instance_resources.get? instanceId = some (stream, inst))
    (hhandle : inst.aggregate.handle inst.state command payload = Except.ok events)
    (happly : inst.aggregate.apply inst.state events = Except.error e) :
    execute_command sess command payload instanceId insertOk =
      HostResult.ok
        { sess with
            events_scratch := some (EventsScratch.new (serializeCallError e)) }
        (-1) := by
  have hha : inst.handle_and_apply command payload = Except.error e := by
    rw [ModuleInstance.handle_and_apply, ModuleInstance.handle, hhandle]
    simp [ModuleInstance.apply, happly]
  simp only [execute_command, hinst, hha]

/-- Witness for the amended C5, at the concrete failing contract of the
counterexample. -/
theorem execute_command_replay_failure_recoverable_witness :
    applyFailSession.aggregate_module_instance_resources.get? 0 =
      some ("acct-1", applyFailInstance) ∧
    applyFailInstance.aggregate.handle applyFailInstance.state "deposit" [100] =
      Except.ok [{ event_type := "deposited", payload := [100] }] ∧
    applyFailInstance.aggregate.apply applyFailInstance.state
      [{ event_type := "deposited", payload := [100] }] =
      Except.error (CallError.domain (Error.custom "diverged")) ∧
    execute_command applyFailSession "deposit" [100] 0 false =
      HostResult.ok
        { applyFailSession with
            events_scratch :=
              some (EventsScratch.new
                (serializeCallError (CallError.domain (Error.custom "diverged")))) }
        (-1) :=
  ⟨rfl, rfl, rfl,
    execute_command_replay_failure_recoverable applyFailSession "deposit" [100] 0 false
      "acct-1" applyFailInstance [{ event_type := "deposited", payload := [100] }]
      (CallError.domain (Error.custom "diverged")) rfl rfl rfl⟩

/-- C7: when decide succeeds producing zero proposed events,
`execute_command` returns 0 and the session is returned exactly as given:
nothing is appended to the store (the zero check short-circuits before any
database access, so the stream version is unchanged) and the instance state
is unchanged (replay of an empty batch is the empty fold, returning the
state as is). -/
theorem execute_command_zero_events (sess : Session) (command : String)
    (payload : List UInt8) (instanceId : Nat) (insertOk : Bool) (stream : String)
    (inst : ModuleInstance)
    (hinst : sess.aggregate_module_instance_resources.get? instanceId = some (stream, inst))
    (hhandle : inst.aggregate.handle inst.state command payload = Except.ok []) :
    execute_command sess command payload instanceId insertOk = HostResult.ok sess 0 := by
  have hha : inst.handle_and_apply command payload = Except.ok (inst, []) := by
    rw [ModuleInstance.handle_and_apply, ModuleInstance.handle, hhandle]
    rfl
  simp only [execute_command, hinst, hha, executePersist]
  rw [list_set_self _ _ _ hinst]
  rfl

def idleAggregate : Aggregate where
  init := fun _ => Except.ok []
  applyStep := fun s _ => Except.ok s
  handle := fun _ _ _ => Except.ok []

def idleInstance : ModuleInstance :=
  { aggregate := idleAggregate, id := "acct-1", state := [42] }

def idleSession : Session :=
  { database_pool := some sampleStore,
    aggregate_module_resources := [],
    aggregate_module_instance_resources := [("acct-1", idleInstance)],
    events_scratch := none }

/-- Witness for C7: a contract that proposes no events; the session comes
back untouched with return value 0. -/
theorem execute_command_zero_events_witness :
    idleSession.aggregate_module_instance_resources.get? 0 =
      some ("acct-1", idleInstance) ∧
    idleInstance.aggregate.handle idleInstance.state "noop" [] = Except.ok [] ∧
    execute_command idleSession "noop" [] 0 true = HostResult.ok idleSession 0 :=
  ⟨rfl, rfl,
    execute_command_zero_events idleSession "noop" [] 0 true "acct-1" idleInstance rfl rfl⟩

/-- C10: when decide and replay both succeed with a non-empty batch but the
store append fails (a `(stream, version)` uniqueness conflict raced by a
concurrent append, or an infrastructure failure), `execute_command` aborts
with a host fault whose session already contains the instance advanced to
the replayed state — the mutation made by `handle_and_apply` is not rolled
back — while the store is unchanged: the live in-memory state has diverged
from the persisted history. -/
theorem execute_command_insert_failure_divergence (sess : Session) (command : String)
    (payload : List UInt8) (instanceId : Nat) (stream : String) (inst : ModuleInstance)
    (events : List Event) (newState : List UInt8) (store : Store)
    (hinst : sess.aggregate_module_instance_resources.get? instanceId = some (stream, inst))
    (hhandle : inst.aggregate.handle inst.state command payload = Except.ok events)
    (happly : inst.aggregate.apply inst.state events = Except.ok newState)
    (hne : events ≠ [])
    (hdb : sess.database_pool = some store) :
    execute_command sess command payload instanceId false =
      HostResult.fault
        { sess with
            aggregate_module_instance_resources :=
              sess.aggregate_module_instance_resources.set instanceId
                (stream, { inst with state := newState }) }
        "lunatic::thalo::execute_command" ∧
    ({ sess with
        aggregate_module_instance_resources :=
          sess.aggregate_module_instance_resources.set instanceId
            (stream, { inst with state := newState }) } : Session).database_pool =
      some store ∧
    ({ sess with
        aggregate_module_instance_resources :=
          sess.aggregate_module_instance_resources.set instanceId
            (stream, { inst with state := newState }) } :
        Session).aggregate_module_instance_resources.get? instanceId =
      some (stream, { inst with state := newState }) := by
  have hha : inst.handle_and_apply command payload =
      Except.ok ({ inst with state := newState }, events) := by
    rw [ModuleInstance.handle_and_apply, ModuleInstance.handle, hhandle]
    simp [ModuleInstance.apply, happly]
  refine ⟨?_, hdb, list_get_set_self _ _ _ _ hinst⟩
  simp only [execute_command, hinst, hha, executePersist]
  rw [if_neg (by simpa using hne), hdb]
  rfl

/-- Witness for C10: the deposit contract with a failing insert; the
returned fault's session holds the advanced state `[100]` while the store
is still empty. -/
theorem execute_command_insert_failure_divergence_witness :
    depositSession.aggregate_module_instance_resources.get? 0 =
      some ("acct-1", depositInstance) ∧
    depositInstance.aggregate.handle depositInstance.state "deposit" [100] =
      Except.ok [{ event_type := "deposited", payload := [100] }] ∧
    depositInstance.aggregate.apply depositInstance.state
      [{ event_type := "deposited", payload := [100] }] = Except.ok [100] ∧
    depositSession.database_pool = some [] ∧
    (execute_command depositSession "deposit" [100] 0 false =
      HostResult.fault
        { depositSession with
            aggregate_module_instance_resources :=
              depositSession.aggregate_module_instance_resources.set 0
                ("acct-1", { depositInstance with state := [100] }) }
        "lunatic::thalo::execute_command" ∧
    ({ depositSession with
        aggregate_module_instance_resources :=
          depositSession.aggregate_module_instance_resources.set 0
            ("acct-1", { depositInstance with state := [100] }) } : Session).database_pool =
      some [] ∧
    ({ depositSession with
        aggregate_module_instance_resources :=
          depositSession.aggregate_module_instance_resources.set 0
            ("acct-1", { depositInstance with state := [100] }) } :
        Session).aggregate_module_instance_resources.get? 0 =
      some ("acct-1", { depositInstance with state := [100] })) :=
  ⟨rfl, rfl, rfl, rfl,
    execute_command_insert_failure_divergence depositSession "deposit" [100] 0 "acct-1"
      depositInstance [{ event_type := "deposited", payload := [100] }] [100] []
      rfl rfl rfl (List.cons_ne_nil _ _) rfl⟩

end Thalo
